import Mathlib

/-!
Verification of the synco file-synchronization daemon (Go sources) against its
natural-language specification.  The Go code is shallowly embedded: Go byte
strings become `List (Fin 256)`, `uint64` / `uint32` / `int64` arithmetic is
`Nat` / `Int` with explicit `% 2 ^ w` where the source narrows or wraps,
fallible operations return `Option` / `Except`, and file-system or network
effects become explicit state passing over an association-list file system
with a failure oracle for the I/O steps a claim depends on.

Embedded components (file names refer to the Go sources):
* `internal/syncer/tcp/vclock.go` — vector clocks: `tickVC`, `mergeVC`,
  `vcompare`.
* `internal/syncer/tcp/protocol.go` — the framed binary wire protocol:
  `writeMessage` / `readMessage`, `writeResponse` / `readResponse`.
* `internal/syncer/tcp/server.go` — the receive server's `handleSync` and
  `handleDelete` (and the older revision of `handleSync` with the inverted
  checksum-error check, plus the older `TCPServer.writeFile`).
* `internal/syncer/tcp/syncer.go` — the push syncer's `sendFile` /
  `sendDelete` message construction and response handling.
* `util.AtomicWrite` — temp-file-plus-rename atomic writes.
* the conflict resolver (`NewResolver`, `Resolve`, `resolveNewerWins`).
* `internal/syncer/tcp/endpoint.go` and `cmd/job.go` — endpoint parsing and
  classification.
-/

namespace Synco

/-- A Go byte. -/
abbrev Byte := Fin 256

/-- A Go byte string (`string` / `[]byte`): an arbitrary byte sequence. -/
abbrev Bytes := List Byte

/-- Truncate a natural number to one byte, as Go's `byte(x)` conversion. -/
def byteOf (n : Nat) : Byte := ⟨n % 256, Nat.mod_lt _ (by norm_num)⟩

/-- Bytes of an ASCII Lean string literal; used only to spell concrete
Go string constants and test inputs. -/
def strBytes (s : String) : Bytes := s.toList.map fun c => byteOf c.toNat

/-! ## Vector clocks (`internal/syncer/tcp/vclock.go`)

A Go `map[string]uint64` is embedded as an association list; `lookupVC`
returns the stored value or the Go zero value `0`, `setVC` overwrites the
first binding of the key or appends a fresh one. -/

/-- A vector clock: the `map[string]uint64` of `Vclock.clock`. -/
abbrev VC := List (Bytes × Nat)

/-- Map read with Go's zero-value default: `vc.clock[k]` is `0` when absent. -/
def lookupVC : VC → Bytes → Nat
  | [], _ => 0
  | (k', v) :: t, k => if k' = k then v else lookupVC t k

/-- Map write: `vc.clock[k] = v`. -/
def setVC : VC → Bytes → Nat → VC
  | [], k, v => [(k, v)]
  | (k', v') :: t, k, v => if k' = k then (k, v) :: t else (k', v') :: setVC t k v

/-- Source `Vclock.Tick`: `vc.clock[nodeID]++` on a `uint64`, which wraps at
`2 ^ 64`. -/
def tickVC (vc : VC) (nodeID : Bytes) : VC :=
  setVC vc nodeID ((lookupVC vc nodeID + 1) % 2 ^ 64)

/-- Source `Vclock.Merge`: for each entry of `other`, keep the larger value. -/
def mergeVC (vc : VC) (other : VC) : VC :=
  other.foldl (fun acc kv => if lookupVC acc kv.1 < kv.2 then setVC acc kv.1 kv.2 else acc) vc

/-- The `Relation` returned by `Compare`. -/
inductive Relation where
  | before
  | concurrent
  | after
  deriving DecidableEq, Repr

/-- Source `Compare(a, b)`, over the union of both key sets (absent keys read
as 0).  The Go loop's flag updates are crossed: `av > bv` clears `bBeforeA`
and `av < bv` clears `aBeforeB`.  So after the loop the variable named
`aBeforeB` holds "no component of `a` is below `b`'s", i.e. `b ≤ a`
pointwise, and `bBeforeA` holds `a ≤ b` pointwise — and the switch therefore
returns `Before` when `a` dominates (or equals) `b` and `After` when `a` is
strictly dominated, the opposite of the names and of the specification's
description of the strict cases. -/
def vcompare (a b : VC) : Relation :=
  let ks := a.map Prod.fst ++ b.map Prod.fst
  let aBeforeB := ks.all fun k => lookupVC b k ≤ lookupVC a k
  let bBeforeA := ks.all fun k => lookupVC a k ≤ lookupVC b k
  if aBeforeB && !bBeforeA then .before
  else if bBeforeA && !aBeforeB then .after
  else if aBeforeB && bBeforeA then .before
  else .concurrent

/-- Pointwise order on clocks (absent keys read as 0), the specification's
"every component of `A` is ≤ the corresponding component of `B`". -/
def vcLE (a b : VC) : Prop := ∀ k : Bytes, lookupVC a k ≤ lookupVC b k

/-! A finite sequence of clock operations, for the monotonicity claim. -/

/-- One mutating vector-clock operation. -/
inductive ClockOp where
  | tickOp (n : Bytes)
  | mergeOp (o : VC)

/-- Apply one operation. -/
def applyOp (vc : VC) : ClockOp → VC
  | .tickOp n => tickVC vc n
  | .mergeOp o => mergeVC vc o

/-- Apply a sequence of operations left to right. -/
def applyOps (vc : VC) (ops : List ClockOp) : VC := ops.foldl applyOp vc

/-- A sequence is wrap-free when no `Tick` hits an entry holding the maximal
`uint64` value `2 ^ 64 - 1`. -/
def safeOps : VC → List ClockOp → Bool
  | _, [] => true
  | vc, op :: t =>
    (match op with
      | .tickOp n => decide (lookupVC vc n < 2 ^ 64 - 1)
      | .mergeOp _ => true) && safeOps (applyOp vc op) t

/-! ## Wire protocol (`internal/syncer/tcp/protocol.go`)

Frames are byte lists.  Multi-byte integers are big-endian.  Writers narrow
lengths exactly as the Go source does (`uint32(len(...))`, `uint64(len(...))`);
readers are partial functions returning the parsed value and the unread rest
of the stream, `none` when the stream is exhausted (`io.ReadFull` /
`binary.Read` failing). -/

/-- Big-endian bytes of `n`, fixed width `k`; high bits beyond `8 * k` are
dropped, as Go's fixed-width `binary.Write` after a narrowing conversion. -/
def beBytes : Nat → Nat → Bytes
  | 0, _ => []
  | k + 1, n => beBytes k (n / 256) ++ [byteOf n]

/-- Big-endian value of a byte list. -/
def fromBe (l : Bytes) : Nat := l.foldl (fun acc b => acc * 256 + b.val) 0

/-- Read one byte. -/
def readByte : Bytes → Option (Byte × Bytes)
  | [] => none
  | b :: l => some (b, l)

/-- Read exactly `k` bytes (`io.ReadFull`). -/
def readBytes : Nat → Bytes → Option (Bytes × Bytes)
  | 0, l => some ([], l)
  | _ + 1, [] => none
  | k + 1, b :: l => (readBytes k l).map fun p => (b :: p.1, p.2)

/-- Write a `uint32` big-endian. -/
def writeU32 (n : Nat) : Bytes := beBytes 4 n

/-- Read a `uint32` big-endian. -/
def readU32 (l : Bytes) : Option (Nat × Bytes) :=
  (readBytes 4 l).map fun p => (fromBe p.1, p.2)

/-- Write a `uint64` big-endian. -/
def writeU64 (n : Nat) : Bytes := beBytes 8 n

/-- Read a `uint64` big-endian. -/
def readU64 (l : Bytes) : Option (Nat × Bytes) :=
  (readBytes 8 l).map fun p => (fromBe p.1, p.2)

/-- Write an `int64` big-endian (two's complement). -/
def writeI64 (z : Int) : Bytes := beBytes 8 (z % (2 ^ 64 : Int)).toNat

/-- Decode 64 bits as a signed value. -/
def natToI64 (n : Nat) : Int := if n < 2 ^ 63 then (n : Int) else (n : Int) - 2 ^ 64

/-- Read an `int64` big-endian. -/
def readI64 (l : Bytes) : Option (Int × Bytes) :=
  (readBytes 8 l).map fun p => (natToI64 (fromBe p.1), p.2)

/-- Source `writeString`: `u32` length then the bytes. -/
def writeStr (s : Bytes) : Bytes := writeU32 s.length ++ s

/-- Source `readString`. -/
def readStr (l : Bytes) : Option (Bytes × Bytes) :=
  (readU32 l).bind fun p => readBytes p.1 p.2

/-- The vector-clock entries of a frame, in iteration order. -/
def writeVCEntries : VC → Bytes
  | [] => []
  | (k, v) :: t => writeStr k ++ writeU64 v ++ writeVCEntries t

/-- Read `n` vector-clock entries. -/
def readVCEntries : Nat → Bytes → Option (VC × Bytes)
  | 0, l => some ([], l)
  | n + 1, l =>
    (readStr l).bind fun pk =>
      (readU64 pk.2).bind fun pv =>
        (readVCEntries n pv.2).map fun pt => ((pk.1, pv.1) :: pt.1, pt.2)

/-- A wire `Message`.  `modTime` is the `UnixNano` value; `checksum` and
`data` are raw bytes.  For non-`Sync` types the Go zero values are
`modTime = 0`, `checksum = []`, `data = []`. -/
structure Message where
  mtype : Nat
  originID : Bytes
  vclock : VC
  path : Bytes
  modTime : Int
  checksum : Bytes
  data : Bytes
  deriving DecidableEq, Repr

/-- A wire `Response`. -/
structure Response where
  code : Nat
  msg : Bytes
  vclock : VC
  deriving DecidableEq, Repr

/-- Source `MessageSync = 0x01`, `MessageDelete = 0x02`, `MessagePing = 0x03`. -/
def messageSync : Nat := 1

def messageDelete : Nat := 2

def messagePing : Nat := 3

/-- Source `ResponseOK = 0x00`, `ResponseErr = 0x01`, `ResponseSkip = 0x02`. -/
def responseOK : Nat := 0

def responseErr : Nat := 1

def responseSkip : Nat := 2

/-- Source `WriteMessage`: type byte, origin, clock length and entries, path, and for
`Sync` the mod time, raw 32-byte checksum, and length-prefixed data. -/
def writeMessage (m : Message) : Bytes :=
  [byteOf m.mtype] ++ writeStr m.originID ++
  writeU32 m.vclock.length ++ writeVCEntries m.vclock ++
  writeStr m.path ++
  (if m.mtype = messageSync then
    writeI64 m.modTime ++ m.checksum ++ writeU64 m.data.length ++ m.data
  else [])

/-- Source `ReadMessage`. -/
def readMessage (l : Bytes) : Option (Message × Bytes) :=
  (readByte l).bind fun pt =>
    (readStr pt.2).bind fun po =>
      (readU32 po.2).bind fun pn =>
        (readVCEntries pn.1 pn.2).bind fun pv =>
          (readStr pv.2).bind fun pp =>
            if pt.1.val = messageSync then
              (readI64 pp.2).bind fun pm =>
                (readBytes 32 pm.2).bind fun pc =>
                  (readU64 pc.2).bind fun pd =>
                    (readBytes pd.1 pd.2).map fun px =>
                      (⟨pt.1.val, po.1, pv.1, pp.1, pm.1, pc.1, px.1⟩, px.2)
            else
              some (⟨pt.1.val, po.1, pv.1, pp.1, 0, [], []⟩, pp.2)

/-- Source `WriteResponse`: code byte, message, clock length and entries. -/
def writeResponse (r : Response) : Bytes :=
  [byteOf r.code] ++ writeStr r.msg ++
  writeU32 r.vclock.length ++ writeVCEntries r.vclock

/-- Source `ReadResponse`. -/
def readResponse (l : Bytes) : Option (Response × Bytes) :=
  (readByte l).bind fun pc =>
    (readStr pc.2).bind fun pm =>
      (readU32 pm.2).bind fun pn =>
        (readVCEntries pn.1 pn.2).map fun pv =>
          (⟨pc.1.val, pm.1, pv.1⟩, pv.2)

/-- Well-formedness from the claim: the three defined types, and the
`Sync`-only fields present (32-byte checksum) exactly for `Sync`. -/
def WFMessage (m : Message) : Prop :=
  (m.mtype = messageSync ∨ m.mtype = messageDelete ∨ m.mtype = messagePing) ∧
  (m.mtype = messageSync → m.checksum.length = 32) ∧
  (m.mtype ≠ messageSync → m.modTime = 0 ∧ m.checksum = [] ∧ m.data = [])

/-- The size bounds the Go narrowing conversions impose: every length-prefixed
field fits its prefix and the mod time fits `int64`. -/
def BoundedMessage (m : Message) : Prop :=
  m.originID.length < 2 ^ 32 ∧ m.path.length < 2 ^ 32 ∧
  m.vclock.length < 2 ^ 32 ∧
  (∀ kv ∈ m.vclock, kv.1.length < 2 ^ 32 ∧ kv.2 < 2 ^ 64) ∧
  m.data.length < 2 ^ 64 ∧
  -(2 ^ 63) ≤ m.modTime ∧ m.modTime < 2 ^ 63

/-- Size bounds for a `Response`. -/
def BoundedResponse (r : Response) : Prop :=
  r.code < 256 ∧ r.msg.length < 2 ^ 32 ∧ r.vclock.length < 2 ^ 32 ∧
  (∀ kv ∈ r.vclock, kv.1.length < 2 ^ 32 ∧ kv.2 < 2 ^ 64)

/-- A concrete well-formed `Sync` message for evaluation. -/
def sampleSyncMessage : Message :=
  ⟨messageSync, strBytes "N1", [(strBytes "N1", 1)], strBytes "f", 5,
    List.replicate 32 (byteOf 7), strBytes "x"⟩

/-- A concrete response for evaluation. -/
def sampleOKResponse : Response :=
  ⟨responseOK, [], [(strBytes "N1", 1), (strBytes "N2", 1)]⟩

/-- A well-formed `Delete` message whose path is `2 ^ 32` bytes long: the
`uint32(len(...))` narrowing in `writeString` truncates its length prefix
to 0. -/
def bigPathMessage : Message :=
  ⟨messageDelete, [], [], List.replicate (2 ^ 32) (byteOf 97), 0, [], []⟩

/-! ## File system, failure oracle, atomic writes -/

/-- A file's content and modification time (Unix nanoseconds). -/
structure FileInfo where
  data : Bytes
  modTime : Int
  deriving DecidableEq, Repr

/-- The modelled file system: an association of paths to files. -/
abbrev FS := List (Bytes × FileInfo)

/-- Read a file; `none` is `os.Open` / `os.Stat` failing with not-exists. -/
def lookupFS : FS → Bytes → Option FileInfo
  | [], _ => none
  | (p', fi) :: t, p => if p' = p then some fi else lookupFS t p

/-- Create or overwrite a file. -/
def setFS : FS → Bytes → FileInfo → FS
  | [], p, fi => [(p, fi)]
  | (p', fi') :: t, p, fi => if p' = p then (p, fi) :: t else (p', fi') :: setFS t p fi

/-- Remove a file (no error when absent, as `os.Remove` + `IsNotExist`). -/
def eraseFS : FS → Bytes → FS
  | [], _ => []
  | (p', fi') :: t, p => if p' = p then eraseFS t p else (p', fi') :: eraseFS t p

/-- Source `filepath.Join(dst, rel)` with a forward-slash separator (`filepath.Clean`
normalization is not modelled; every use below treats the result as an opaque
key). -/
def joinPath (dst rel : Bytes) : Bytes := dst ++ byteOf 47 :: rel

/-- The temp-file name `dst + ".synco.tmp"`. -/
def tmpName (dst : Bytes) : Bytes := dst ++ strBytes ".synco.tmp"

/-- Failure injection for the file-system steps of one write; `partialData` is
what a failing copy/write leaves in the temp file before erroring. -/
structure Oracle where
  mkdirFail : Bool
  createFail : Bool
  copyFail : Bool
  closeFail : Bool
  renameFail : Bool
  writeFail : Bool
  removeFail : Bool
  partialData : Bytes
  deriving DecidableEq, Repr

/-- The all-success oracle. -/
def okOracle : Oracle := ⟨false, false, false, false, false, false, false, []⟩

/-- Source `util.AtomicWrite`: create parent dirs, create `dst + ".synco.tmp"`, copy
the data, close, rename over `dst`; every failure after the temp file exists
removes it (`os.Remove` on the copy, close and rename branches). `now` is the
mod time the file system assigns to written files. -/
def AtomicWrite (o : Oracle) (dst data : Bytes) (now : Int) (fs : FS) :
    Except String Unit × FS :=
  if o.mkdirFail then (.error "failed to create parent dir", fs)
  else if o.createFail then (.error "failed to create temp file", fs)
  else
    let tmp := tmpName dst
    let fs1 := setFS fs tmp ⟨[], now⟩
    if o.copyFail then
      (.error "failed to write", eraseFS (setFS fs1 tmp ⟨o.partialData, now⟩) tmp)
    else
      let fs2 := setFS fs1 tmp ⟨data, now⟩
      if o.closeFail then (.error "failed to close temp file", eraseFS fs2 tmp)
      else if o.renameFail then (.error "failed to rename", eraseFS fs2 tmp)
      else (.ok (), setFS (eraseFS fs2 tmp) dst ⟨data, now⟩)

/-- Source `TCPServer.writeFile` (the older receive server; the same inline sequence
appears in the oldest `handleSync`): create parent dirs, `os.WriteFile` the
temp file, rename; only a failing rename removes the temp file, while a
failing `os.WriteFile` returns the error with the partial temp file left in
place. -/
def writeFile (o : Oracle) (dst data : Bytes) (now : Int) (fs : FS) :
    Except String Unit × FS :=
  if o.mkdirFail then (.error "failed to create parent dir", fs)
  else
    let tmp := tmpName dst
    if o.createFail then (.error "open temp file", fs)
    else if o.writeFail then
      (.error "write temp file", setFS fs tmp ⟨o.partialData, now⟩)
    else
      let fs1 := setFS fs tmp ⟨data, now⟩
      if o.renameFail then (.error "failed to rename", eraseFS fs1 tmp)
      else (.ok (), setFS (eraseFS fs1 tmp) dst ⟨data, now⟩)

/-! ## Conflict resolver -/

/-- Source `model.ConflictStrategy` constants (Go strings). -/
def strategyNewerWins : Bytes := strBytes "NEWER_WINS"

def strategySourceWins : Bytes := strBytes "SOURCE_WINS"

def strategyBackup : Bytes := strBytes "BACKUP"

def strategySkip : Bytes := strBytes "SKIP"

/-- Source `model.ConflictInfo`; mod times are `UnixNano` values. -/
structure ConflictInfo where
  path : Bytes
  srcModTime : Int
  dstModTime : Int
  strategy : Bytes
  resolved : Bool
  backupPath : Bytes
  deriving DecidableEq, Repr

/-- The `conflict.Resolver`: a strategy string. -/
structure Resolver where
  strategy : Bytes
  deriving DecidableEq, Repr

/-- Source `NewResolver`: an empty strategy string defaults to `NEWER_WINS`. -/
def NewResolver (strategy : Bytes) : Resolver :=
  if strategy = [] then ⟨strategyNewerWins⟩ else ⟨strategy⟩

/-- Source `resolveNewerWins`: proceed iff the source mod time is strictly after the
destination's (`time.After` on `UnixNano` values); on equal times the
destination wins. -/
def resolveNewerWins (c : ConflictInfo) : Bool × Option String × ConflictInfo :=
  if c.dstModTime < c.srcModTime then (true, none, { c with resolved := true })
  else (false, none, { c with resolved := false })

/-- The backup name; the timestamp `ts` stands for the formatted `time.Now()`
(the `filepath.Ext` suffix split is not modelled — no claim depends on the
backup file's name). -/
def backupName (dst ts : Bytes) : Bytes := dst ++ strBytes ".conflict_" ++ ts

/-- Source `Resolver.backup`: `os.Rename(dstPath, backupPath)`, failing iff the
destination does not exist. -/
def backupStep (dst ts : Bytes) (fs : FS) : Except String Bytes × FS :=
  match lookupFS fs dst with
  | none => (.error "failed to backup", fs)
  | some fi => (.ok (backupName dst ts), setFS (eraseFS fs dst) (backupName dst ts) fi)

/-- Source `Resolver.Resolve`: dispatch on the strategy string; an unknown strategy
is an error.  Returns (proceed, error, updated conflict, file system). -/
def Resolve (r : Resolver) (c : ConflictInfo) (dstPath ts : Bytes) (fs : FS) :
    Bool × Option String × ConflictInfo × FS :=
  if r.strategy = strategyNewerWins then
    let p := resolveNewerWins c
    (p.1, p.2.1, p.2.2, fs)
  else if r.strategy = strategySourceWins then
    (true, none, { c with resolved := true }, fs)
  else if r.strategy = strategyBackup then
    match backupStep dstPath ts fs with
    | (.error e, fs') => (false, some e, c, fs')
    | (.ok bp, fs') => (true, none, { c with resolved := true, backupPath := bp }, fs')
  else if r.strategy = strategySkip then
    (false, none, { c with resolved := false }, fs)
  else (false, some "unknown strategy", c, fs)

/-! ## Receive server and push syncer -/

/-- Hash helpers; the claims depend only on checksum equality, so SHA-256 is
an abstract parameter `h` throughout. -/
def fileChecksum (h : Bytes → Bytes) (fs : FS) (p : Bytes) : Option Bytes :=
  (lookupFS fs p).map fun fi => h fi.data

/-- Source `ChecksumEqual` (length check plus bytewise comparison). -/
def checksumEqual (a b : Bytes) : Bool := a = b

/-- Source `ValidateChecksum(data, expected)`. -/
def validateChecksum (h : Bytes → Bytes) (data expected : Bytes) : Bool :=
  checksumEqual (h data) expected

/-- The hash-equal fast path of `handleSync` (current revision): skip when
the destination file is readable and its hash equals the incoming checksum. -/
def syncDedup (h : Bytes → Bytes) (fs : FS) (p ck : Bytes) : Bool :=
  match fileChecksum h fs p with
  | some existing => checksumEqual existing ck
  | none => false

/-- The same branch in the oldest revision, with the inverted error check:
the comparison happens only when `FileChecksum` FAILS, against the nil
slice. -/
def syncDedupOld (h : Bytes → Bytes) (fs : FS) (p ck : Bytes) : Bool :=
  match fileChecksum h fs p with
  | some _ => false
  | none => checksumEqual [] ck

/-- The receive server's state: destination root, node ID, resolver, clock. -/
structure ServerState where
  dst : Bytes
  nodeID : Bytes
  resolver : Resolver
  vc : VC
  deriving DecidableEq, Repr

/-- Source `Server.handleSync` (current revision): hash-equal fast path, causal
comparison, conflict resolution on `Concurrent` when the destination exists,
then `Merge` + `Tick`, checksum validation, and `util.AtomicWrite`.  `h` is
the hash, `o` the I/O oracle, `ts` the backup timestamp, `now` the write
time. -/
def handleSync (h : Bytes → Bytes) (o : Oracle) (ts : Bytes) (now : Int)
    (s : ServerState) (fs : FS) (msg : Message) : Response × ServerState × FS :=
  let dstPath := joinPath s.dst msg.path
  if syncDedup h fs dstPath msg.checksum then (⟨responseSkip, [], []⟩, s, fs)
  else
    let proceed := fun (fs' : FS) =>
      let s' := { s with vc := tickVC (mergeVC s.vc msg.vclock) s.nodeID }
      if !validateChecksum h msg.data msg.checksum then
        (⟨responseErr, strBytes "checksum validation failed", []⟩, s', fs')
      else
        match AtomicWrite o dstPath msg.data now fs' with
        | (.error e, fs'') => (⟨responseErr, strBytes e, []⟩, s', fs'')
        | (.ok _, fs'') => (⟨responseOK, [], []⟩, s', fs'')
    match vcompare msg.vclock s.vc with
    | .before => (⟨responseSkip, [], []⟩, s, fs)
    | .concurrent =>
      match lookupFS fs dstPath with
      | some dstInfo =>
        let ci : ConflictInfo :=
          ⟨msg.path, msg.modTime, dstInfo.modTime, s.resolver.strategy, false, []⟩
        let res := Resolve s.resolver ci dstPath ts fs
        if res.2.1.isSome || !res.1 then
          (⟨responseSkip, strBytes "conflict: resolved as skip", []⟩, s, res.2.2.2)
        else proceed res.2.2.2
      | none => proceed fs
    | .after => proceed fs

/-- The oldest revision of `TCPServer.handleSync` (no vector clock): its
"skip if the local checksum matches" branch tests `err != nil`, i.e. it
compares checksums only when `FileChecksum` FAILED — `existing` is then the
nil slice; when the destination file is readable the fast path is skipped
and the file is rewritten. -/
def handleSyncOld (h : Bytes → Bytes) (o : Oracle) (now : Int) (dst : Bytes)
    (fs : FS) (msg : Message) : Response × FS :=
  let dstPath := joinPath dst msg.path
  if syncDedupOld h fs dstPath msg.checksum then (⟨responseSkip, [], []⟩, fs)
  else if !validateChecksum h msg.data msg.checksum then
    (⟨responseErr, strBytes "checksum validation failed", []⟩, fs)
  else
    match writeFile o dstPath msg.data now fs with
    | (.error e, fs') => (⟨responseErr, strBytes e, []⟩, fs')
    | (.ok _, fs') => (⟨responseOK, [], []⟩, fs')

/-- Source `Server.handleDelete`: remove the destination (`os.IsNotExist` is not an
error) and respond `OK`; the vector clock is neither read nor written. -/
def handleDelete (o : Oracle) (s : ServerState) (fs : FS) (msg : Message) :
    Response × ServerState × FS :=
  let dstPath := joinPath s.dst msg.path
  if o.removeFail then (⟨responseErr, strBytes "remove failed", []⟩, s, fs)
  else (⟨responseOK, [], []⟩, s, eraseFS fs dstPath)

/-- The push syncer's state (`tcp.Syncer`). -/
structure SyncerState where
  src : Bytes
  addr : Bytes
  nodeID : Bytes
  vc : VC
  deriving DecidableEq, Repr

/-- Source `Syncer.sendFile`, message-construction part: stat/checksum/read have
succeeded with contents `data` and mod time `modTime`, the relative path is
`relPath`; the syncer ticks its own clock and snapshots it into the
message. -/
def sendFileMessage (h : Bytes → Bytes) (sy : SyncerState)
    (relPath data : Bytes) (modTime : Int) : Message × SyncerState :=
  let sy' := { sy with vc := tickVC sy.vc sy.nodeID }
  (⟨messageSync, sy'.nodeID, sy'.vc, relPath, modTime, h data, data⟩, sy')

/-- Source `Syncer.sendFile`, response part: only an `OK` response merges the
response's vector clock into the local clock. -/
def sendFileOnResponse (sy : SyncerState) (resp : Response) : SyncerState :=
  if resp.code = responseOK then { sy with vc := mergeVC sy.vc resp.vclock } else sy

/-- Source `Syncer.sendDelete`: the message carries only the type and path (no
origin ID, no vector clock), and the syncer's clock is not touched. -/
def sendDeleteMessage (sy : SyncerState) (relPath : Bytes) :
    Message × SyncerState :=
  (⟨messageDelete, [], [], relPath, 0, [], []⟩, sy)

/-! ## Endpoint parsing (`internal/syncer/tcp/endpoint.go`, `cmd/job.go`) -/

/-- Source `strings.Index` for a single byte: first index or `-1`. -/
def indexOfByte : Bytes → Byte → Int
  | [], _ => -1
  | x :: t, c =>
    if x = c then 0
    else
      let r := indexOfByte t c
      if r = -1 then -1 else r + 1

/-- A parsed endpoint. -/
structure Endpoint where
  host : Bytes
  path : Bytes
  deriving DecidableEq, Repr

/-- Source `ParseEndpoint`: no colon, or a slash before the first colon, is a local
path; otherwise `host:port/path`, and with no slash after the colon the whole
string is the host. -/
def ParseEndpoint (raw : Bytes) : Endpoint :=
  let colonIdx := indexOfByte raw (byteOf 58)
  let slashIdx := indexOfByte raw (byteOf 47)
  if colonIdx = -1 then ⟨[], raw⟩
  else if slashIdx ≠ -1 ∧ slashIdx < colonIdx then ⟨[], raw⟩
  else
    let rest := raw.drop (colonIdx.toNat + 1)
    let nextSlash := indexOfByte rest (byteOf 47)
    if nextSlash = -1 then ⟨raw, []⟩
    else ⟨raw.take (colonIdx.toNat + 1 + nextSlash.toNat), rest.drop nextSlash.toNat⟩

/-- Source `Endpoint.IsRemote`. -/
def Endpoint.isRemote (e : Endpoint) : Bool := e.host ≠ []

/-- Source `model.EndpointType`. -/
inductive EndpointType where
  | localEndpoint
  | remoteTCP
  | gdrive
  | dropbox
  deriving DecidableEq, Repr

/-- Source `strings.HasPrefix(s, pre)`. -/
def hasPrefixB : Bytes → Bytes → Bool
  | _, [] => true
  | [], _ :: _ => false
  | c :: s, p :: ps => p = c && hasPrefixB s ps

/-- Source `cmd.endpointType`: the `gdrive:` / `dropbox:` prefixes, then
`ParseEndpoint(...).IsRemote()`, else local. -/
def endpointType (raw : Bytes) : EndpointType :=
  if hasPrefixB raw (strBytes "gdrive:") then .gdrive
  else if hasPrefixB raw (strBytes "dropbox:") then .dropbox
  else if (ParseEndpoint raw).isRemote then .remoteTCP
  else .localEndpoint

/-! Basic lookup/update laws. -/

theorem lookupVC_setVC_self (vc : VC) (k : Bytes) (v : Nat) :
    lookupVC (setVC vc k v) k = v := by
  induction vc with
  | nil => simp [setVC, lookupVC]
  | cons hd t ih =>
    obtain ⟨k₀, v₀⟩ := hd
    by_cases h : k₀ = k
    · simp [setVC, h, lookupVC]
    · simp [setVC, h, lookupVC, ih]

theorem lookupVC_setVC_other (vc : VC) (k k' : Bytes) (v : Nat) (h : k ≠ k') :
    lookupVC (setVC vc k v) k' = lookupVC vc k' := by
  induction vc with
  | nil => simp [setVC, lookupVC, h]
  | cons hd t ih =>
    obtain ⟨k₀, v₀⟩ := hd
    by_cases hk : k₀ = k
    · subst hk
      simp [setVC, lookupVC, h]
    · simp [setVC, lookupVC, hk, ih]

/-- A key with a non-zero reading is bound in the clock. -/
theorem mem_keys_of_lookupVC_ne_zero {vc : VC} {k : Bytes}
    (h : lookupVC vc k ≠ 0) : k ∈ vc.map Prod.fst := by
  induction vc with
  | nil => simp [lookupVC] at h
  | cons hd t ih =>
    by_cases hk : hd.1 = k
    · simp [hk]
    · simp [lookupVC, hk] at h
      simpa using Or.inr (ih h)

/-- Keys absent from a clock read as 0. -/
theorem lookupVC_eq_zero_of_not_mem {vc : VC} {k : Bytes}
    (h : k ∉ vc.map Prod.fst) : lookupVC vc k = 0 := by
  by_contra hne
  exact h (mem_keys_of_lookupVC_ne_zero hne)

/-- The componentwise flags of `Compare` computed over any key list covering
the left clock's bindings decide the pointwise order. -/
theorem all_le_iff (a b : VC) (ks : List Bytes)
    (hka : ∀ k, lookupVC a k ≠ 0 → k ∈ ks) :
    ((ks.all fun k => lookupVC a k ≤ lookupVC b k) = true) ↔ vcLE a b := by
  constructor
  · intro h k
    by_cases h0 : lookupVC a k = 0
    · simp [h0]
    · have hmem := hka k h0
      have := List.all_eq_true.1 h k hmem
      exact of_decide_eq_true this
  · intro h
    exact List.all_eq_true.2 fun k _ => decide_eq_true (h k)

theorem vcompare_of_dom (a b : VC) (h : vcLE b a) : vcompare a b = .before := by
  have ha : ((a.map Prod.fst ++ b.map Prod.fst).all
      fun k => lookupVC b k ≤ lookupVC a k) = true :=
    (all_le_iff b a _ fun k h' =>
      List.mem_append_right _ (mem_keys_of_lookupVC_ne_zero h')).2 h
  cases hb : ((a.map Prod.fst ++ b.map Prod.fst).all
      fun k => lookupVC a k ≤ lookupVC b k) <;> simp [vcompare, ha, hb]

theorem vcompare_of_sub (a b : VC) (hab : vcLE a b) (hba : ¬ vcLE b a) :
    vcompare a b = .after := by
  have hbeq : ((a.map Prod.fst ++ b.map Prod.fst).all
      fun k => lookupVC a k ≤ lookupVC b k) = true :=
    (all_le_iff a b _ fun k h' =>
      List.mem_append_left _ (mem_keys_of_lookupVC_ne_zero h')).2 hab
  cases ha : ((a.map Prod.fst ++ b.map Prod.fst).all
      fun k => lookupVC b k ≤ lookupVC a k) with
  | false => simp [vcompare, ha, hbeq]
  | true =>
    exact absurd ((all_le_iff b a _ fun k h' =>
      List.mem_append_right _ (mem_keys_of_lookupVC_ne_zero h')).1 ha) hba

theorem vcompare_of_incomp (a b : VC) (hab : ¬ vcLE a b) (hba : ¬ vcLE b a) :
    vcompare a b = .concurrent := by
  cases ha : ((a.map Prod.fst ++ b.map Prod.fst).all
      fun k => lookupVC b k ≤ lookupVC a k) with
  | true =>
    exact absurd ((all_le_iff b a _ fun k h' =>
      List.mem_append_right _ (mem_keys_of_lookupVC_ne_zero h')).1 ha) hba
  | false =>
    cases hb : ((a.map Prod.fst ++ b.map Prod.fst).all
        fun k => lookupVC a k ≤ lookupVC b k) with
    | true =>
      exact absurd ((all_le_iff a b _ fun k h' =>
        List.mem_append_left _ (mem_keys_of_lookupVC_ne_zero h')).1 hb) hab
    | false => simp [vcompare, ha, hb]

/-- The code's `Compare` returns `Before` exactly when `a` dominates or
equals `b` pointwise — NOT when `a` is below `b` as the spec says. -/
theorem vcompare_before_iff (a b : VC) : vcompare a b = .before ↔ vcLE b a := by
  constructor
  · intro h
    by_cases hba : vcLE b a
    · exact hba
    · by_cases hab : vcLE a b
      · rw [vcompare_of_sub a b hab hba] at h
        cases h
      · rw [vcompare_of_incomp a b hab hba] at h
        cases h
  · exact vcompare_of_dom a b

/-- The code's `Compare` returns `After` exactly when `a` is strictly
dominated by `b` pointwise. -/
theorem vcompare_after_iff (a b : VC) :
    vcompare a b = .after ↔ (vcLE a b ∧ ¬ vcLE b a) := by
  constructor
  · intro h
    by_cases hba : vcLE b a
    · rw [vcompare_of_dom a b hba] at h
      cases h
    · by_cases hab : vcLE a b
      · exact ⟨hab, hba⟩
      · rw [vcompare_of_incomp a b hab hba] at h
        cases h
  · exact fun h => vcompare_of_sub a b h.1 h.2

theorem vcompare_concurrent_iff (a b : VC) :
    vcompare a b = .concurrent ↔ (¬ vcLE a b ∧ ¬ vcLE b a) := by
  constructor
  · intro h
    by_cases hba : vcLE b a
    · rw [vcompare_of_dom a b hba] at h
      cases h
    · by_cases hab : vcLE a b
      · rw [vcompare_of_sub a b hab hba] at h
        cases h
      · exact ⟨hab, hba⟩
  · exact fun h => vcompare_of_incomp a b h.1 h.2

/-! Tick and merge laws. -/

theorem lookupVC_tickVC_self (vc : VC) (n : Bytes) :
    lookupVC (tickVC vc n) n = (lookupVC vc n + 1) % 2 ^ 64 := by
  simp [tickVC, lookupVC_setVC_self]

theorem lookupVC_tickVC_other (vc : VC) (n k : Bytes) (h : n ≠ k) :
    lookupVC (tickVC vc n) k = lookupVC vc k := by
  simp [tickVC, lookupVC_setVC_other _ _ _ _ h]

/-- One merge step never decreases a component. -/
theorem lookupVC_le_mergeVC (vc o : VC) (k : Bytes) :
    lookupVC vc k ≤ lookupVC (mergeVC vc o) k := by
  induction o generalizing vc with
  | nil => simp [mergeVC]
  | cons kv t ih =>
    obtain ⟨k₀, v₀⟩ := kv
    have hstep : lookupVC vc k ≤
        lookupVC (if lookupVC vc k₀ < v₀ then setVC vc k₀ v₀ else vc) k := by
      by_cases hlt : lookupVC vc k₀ < v₀
      · by_cases hk : k₀ = k
        · subst hk
          simp [hlt, lookupVC_setVC_self]
          omega
        · simp [hlt, lookupVC_setVC_other _ _ _ _ hk]
      · simp [hlt]
    calc lookupVC vc k ≤
        lookupVC (if lookupVC vc k₀ < v₀ then setVC vc k₀ v₀ else vc) k := hstep
      _ ≤ _ := by
        have := ih (if lookupVC vc k₀ < v₀ then setVC vc k₀ v₀ else vc)
        simpa [mergeVC] using this

/-- With distinct keys (always true of a Go map), `Merge` is the componentwise
maximum. -/
theorem lookupVC_mergeVC_eq_max (vc o : VC) (hnd : (o.map Prod.fst).Nodup)
    (k : Bytes) : lookupVC (mergeVC vc o) k = max (lookupVC vc k) (lookupVC o k) := by
  induction o generalizing vc with
  | nil => simp [mergeVC, lookupVC]
  | cons kv t ih =>
    obtain ⟨k₀, v₀⟩ := kv
    rw [List.map_cons, List.nodup_cons] at hnd
    obtain ⟨hnotin, hndt⟩ := hnd
    have hrec : mergeVC vc ((k₀, v₀) :: t) =
        mergeVC (if lookupVC vc k₀ < v₀ then setVC vc k₀ v₀ else vc) t := by
      simp [mergeVC]
    rw [hrec, ih _ hndt]
    by_cases hk : k₀ = k
    · subst hk
      have ht0 : lookupVC t k₀ = 0 := lookupVC_eq_zero_of_not_mem hnotin
      by_cases hlt : lookupVC vc k₀ < v₀ <;>
        simp [hlt, lookupVC_setVC_self, lookupVC, ht0] <;> omega
    · have : lookupVC ((k₀, v₀) :: t) k = lookupVC t k := by simp [lookupVC, hk]
      by_cases hlt : lookupVC vc k₀ < v₀ <;>
        simp [hlt, lookupVC_setVC_other _ _ _ _ hk, this]

/-- A single wrap-free operation never decreases a component. -/
theorem lookupVC_le_applyOp (vc : VC) (op : ClockOp) (k : Bytes)
    (hsafe : ∀ n, op = .tickOp n → lookupVC vc n < 2 ^ 64 - 1) :
    lookupVC vc k ≤ lookupVC (applyOp vc op) k := by
  cases op with
  | tickOp n =>
    by_cases hk : n = k
    · subst hk
      have hlt := hsafe n rfl
      rw [applyOp, lookupVC_tickVC_self]
      rw [Nat.mod_eq_of_lt (by omega)]
      omega
    · rw [applyOp, lookupVC_tickVC_other _ _ _ hk]
  | mergeOp o => exact lookupVC_le_mergeVC vc o k

theorem lookupVC_le_applyOps (ops : List ClockOp) (vc : VC) (k : Bytes)
    (hsafe : safeOps vc ops = true) :
    lookupVC vc k ≤ lookupVC (applyOps vc ops) k := by
  induction ops generalizing vc with
  | nil => simp [applyOps]
  | cons op t ih =>
    have hsplit := hsafe
    simp only [safeOps, Bool.and_eq_true] at hsplit
    have h1 : lookupVC vc k ≤ lookupVC (applyOp vc op) k := by
      apply lookupVC_le_applyOp
      intro n hop
      subst hop
      exact of_decide_eq_true hsplit.1
    have h2 := ih (applyOp vc op) hsplit.2
    calc lookupVC vc k ≤ lookupVC (applyOp vc op) k := h1
      _ ≤ lookupVC (applyOps (applyOp vc op) t) k := h2
      _ = lookupVC (applyOps vc (op :: t)) k := by simp [applyOps]

/-! ## Wire-protocol round-trip lemmas -/

theorem byteOf_val (n : Nat) : (byteOf n).val = n % 256 := rfl

theorem length_beBytes (k n : Nat) : (beBytes k n).length = k := by
  induction k generalizing n with
  | zero => simp [beBytes]
  | succ k ih => simp [beBytes, ih]

theorem readBytes_exact (xs r : Bytes) :
    readBytes xs.length (xs ++ r) = some (xs, r) := by
  induction xs generalizing r with
  | nil => simp [readBytes]
  | cons b t ih => simp [readBytes, ih]

theorem fromBe_append_byte (l : Bytes) (b : Byte) :
    fromBe (l ++ [b]) = fromBe l * 256 + b.val := by
  simp [fromBe, List.foldl_append]

theorem fromBe_beBytes (k n : Nat) : fromBe (beBytes k n) = n % 256 ^ k := by
  induction k generalizing n with
  | zero => simp [beBytes, fromBe, Nat.mod_one]
  | succ k ih =>
    rw [beBytes, fromBe_append_byte, ih, byteOf_val]
    have h1 : 256 ^ k * (n / 256 / 256 ^ k) + n / 256 % 256 ^ k = n / 256 :=
      Nat.div_add_mod _ _
    have h2 : 256 * (n / 256) + n % 256 = n := Nat.div_add_mod n 256
    have hmlt : n / 256 % 256 ^ k < 256 ^ k :=
      Nat.mod_lt _ (pow_pos (by norm_num) k)
    have hr : n % 256 < 256 := Nat.mod_lt _ (by norm_num)
    have hexp : n = 256 ^ (k + 1) * (n / 256 / 256 ^ k) +
        (n / 256 % 256 ^ k * 256 + n % 256) := by
      calc n = 256 * (n / 256) + n % 256 := h2.symm
        _ = 256 * (256 ^ k * (n / 256 / 256 ^ k) + n / 256 % 256 ^ k) + n % 256 := by
            rw [h1]
        _ = 256 ^ (k + 1) * (n / 256 / 256 ^ k) +
            (n / 256 % 256 ^ k * 256 + n % 256) := by ring
    have hfit : n / 256 % 256 ^ k * 256 + n % 256 < 256 ^ (k + 1) := by
      have : n / 256 % 256 ^ k * 256 + 256 ≤ 256 ^ k * 256 := by nlinarith
      rw [pow_succ]
      omega
    conv_rhs => rw [hexp]
    rw [Nat.mul_add_mod, Nat.mod_eq_of_lt hfit]

theorem readBytes_beBytes (k n : Nat) (r : Bytes) :
    readBytes k (beBytes k n ++ r) = some (beBytes k n, r) := by
  have h := readBytes_exact (beBytes k n) r
  rwa [length_beBytes] at h

theorem readU32_writeU32_mod (n : Nat) (r : Bytes) :
    readU32 (writeU32 n ++ r) = some (n % 2 ^ 32, r) := by
  rw [readU32, writeU32, readBytes_beBytes]
  simp [fromBe_beBytes]

theorem readU32_writeU32 (n : Nat) (r : Bytes) (h : n < 2 ^ 32) :
    readU32 (writeU32 n ++ r) = some (n, r) := by
  rw [readU32_writeU32_mod, Nat.mod_eq_of_lt h]

theorem readU64_writeU64 (n : Nat) (r : Bytes) (h : n < 2 ^ 64) :
    readU64 (writeU64 n ++ r) = some (n, r) := by
  rw [readU64, writeU64, readBytes_beBytes]
  simp [fromBe_beBytes]
  omega

theorem readI64_writeI64 (z : Int) (r : Bytes) (hl : -(2 ^ 63) ≤ z)
    (hu : z < 2 ^ 63) : readI64 (writeI64 z ++ r) = some (z, r) := by
  rw [readI64, writeI64, readBytes_beBytes]
  simp only [Option.map_some']
  have hmod0 : (0 : Int) ≤ z % (2 ^ 64 : Int) := Int.emod_nonneg z (by norm_num)
  have hmodlt : z % (2 ^ 64 : Int) < 2 ^ 64 := Int.emod_lt_of_pos z (by norm_num)
  have htn : (z % (2 ^ 64 : Int)).toNat < 2 ^ 64 := by omega
  rw [fromBe_beBytes, show (256 : Nat) ^ 8 = 2 ^ 64 by norm_num,
    Nat.mod_eq_of_lt htn]
  rw [natToI64]
  split
  · simp only [Option.some.injEq, Prod.mk.injEq]
    refine ⟨?_, trivial⟩
    omega
  · simp only [Option.some.injEq, Prod.mk.injEq]
    refine ⟨?_, trivial⟩
    omega

theorem readStr_writeStr (s r : Bytes) (h : s.length < 2 ^ 32) :
    readStr (writeStr s ++ r) = some (s, r) := by
  rw [readStr, writeStr, List.append_assoc, readU32_writeU32 _ _ h]
  simpa using readBytes_exact s r

theorem readVCEntries_writeVCEntries (vc : VC) (r : Bytes)
    (h : ∀ kv ∈ vc, kv.1.length < 2 ^ 32 ∧ kv.2 < 2 ^ 64) :
    readVCEntries vc.length (writeVCEntries vc ++ r) = some (vc, r) := by
  induction vc generalizing r with
  | nil => simp [readVCEntries, writeVCEntries]
  | cons kv t ih =>
    obtain ⟨k, v⟩ := kv
    obtain ⟨hk, hv⟩ := h (k, v) (by simp)
    have ht := fun kv hm => h kv (List.mem_cons_of_mem _ hm)
    rw [List.length_cons, writeVCEntries, readVCEntries, List.append_assoc,
      List.append_assoc, readStr_writeStr _ _ hk]
    simp only [Option.bind_eq_bind, Option.some_bind]
    rw [readU64_writeU64 _ _ hv]
    simp only [Option.some_bind]
    rw [ih _ ht]
    rfl

theorem readMessage_writeMessage (m : Message) (r : Bytes)
    (hwf : WFMessage m) (hb : BoundedMessage m) :
    readMessage (writeMessage m ++ r) = some (m, r) := by
  obtain ⟨hty, hck, hnz⟩ := hwf
  obtain ⟨ho, hp, hvl, hkv, hd, hml, hmu⟩ := hb
  have hty256 : m.mtype < 256 := by
    rcases hty with h | h | h <;> simp [h, messageSync, messageDelete, messagePing]
  have hbv : (byteOf m.mtype).val = m.mtype := by
    rw [byteOf_val, Nat.mod_eq_of_lt hty256]
  rw [writeMessage, readMessage]
  simp only [List.append_assoc, List.cons_append, List.nil_append]
  simp only [readByte, Option.some_bind]
  rw [readStr_writeStr _ _ ho]
  simp only [Option.some_bind]
  rw [readU32_writeU32 _ _ hvl]
  simp only [Option.some_bind]
  rw [readVCEntries_writeVCEntries _ _ hkv]
  simp only [Option.some_bind]
  rw [readStr_writeStr _ _ hp]
  simp only [Option.some_bind, hbv]
  by_cases hs : m.mtype = messageSync
  · simp only [if_pos hs, List.append_assoc]
    rw [readI64_writeI64 _ _ hml hmu]
    simp only [Option.some_bind]
    rw [show (32 : Nat) = m.checksum.length from (hck hs).symm, readBytes_exact]
    simp only [Option.some_bind]
    rw [readU64_writeU64 _ _ hd]
    simp only [Option.some_bind]
    rw [readBytes_exact]
    rfl
  · obtain ⟨h0, hce, hde⟩ := hnz hs
    simp only [if_neg hs, List.nil_append]
    obtain ⟨ty, o, vc, p, mt, ck, d⟩ := m
    dsimp only at h0 hce hde ⊢
    subst h0
    subst hce
    subst hde
    rfl

theorem readResponse_writeResponse (resp : Response) (r : Bytes)
    (hb : BoundedResponse resp) :
    readResponse (writeResponse resp ++ r) = some (resp, r) := by
  obtain ⟨hc, hm, hvl, hkv⟩ := hb
  have hbv : (byteOf resp.code).val = resp.code := by
    rw [byteOf_val, Nat.mod_eq_of_lt hc]
  rw [writeResponse, readResponse]
  simp only [List.append_assoc, List.cons_append, List.nil_append]
  simp only [readByte, Option.some_bind]
  rw [readStr_writeStr _ _ hm]
  simp only [Option.some_bind]
  rw [readU32_writeU32 _ _ hvl]
  simp only [Option.some_bind]
  rw [readVCEntries_writeVCEntries _ _ hkv]
  simp only [Option.map_some', hbv]

/-- C3 (amended): for every well-formed `Message` (types `Sync`/`Delete`/
`Ping`; `ModTime`, 32-byte `Checksum` and `Data` present exactly for `Sync`)
whose strings and vector-clock keys are shorter than `2 ^ 32` bytes, whose
clock has fewer than `2 ^ 32` entries with `uint64` values, whose data is
shorter than `2 ^ 64` bytes and whose mod time fits `int64`,
`ReadMessage(WriteMessage(m))` returns `m` with nothing left over; likewise
`ReadResponse(WriteResponse(r))` returns `r` for every response within the
same bounds. -/
theorem C3_protocol_roundtrip (m : Message) (resp : Response)
    (hwf : WFMessage m) (hb : BoundedMessage m) (hbr : BoundedResponse resp) :
    readMessage (writeMessage m) = some (m, []) ∧
    readResponse (writeResponse resp) = some (resp, []) := by
  constructor
  · have h := readMessage_writeMessage m [] hwf hb
    rwa [List.append_nil] at h
  · have h := readResponse_writeResponse resp [] hbr
    rwa [List.append_nil] at h

/-- Witness for C3: a concrete `Sync` message and a concrete response
round-trip, with every hypothesis discharged by evaluation. -/
theorem C3_protocol_roundtrip_witness :
    WFMessage sampleSyncMessage ∧ BoundedMessage sampleSyncMessage ∧
    BoundedResponse sampleOKResponse ∧
    readMessage (writeMessage sampleSyncMessage) = some (sampleSyncMessage, []) ∧
    readResponse (writeResponse sampleOKResponse) = some (sampleOKResponse, []) := by
  have hwf : WFMessage sampleSyncMessage := by
    unfold WFMessage
    decide
  have hb : BoundedMessage sampleSyncMessage := by
    unfold BoundedMessage
    decide
  have hbr : BoundedResponse sampleOKResponse := by
    unfold BoundedResponse
    decide
  exact ⟨hwf, hb, hbr,
    (C3_protocol_roundtrip sampleSyncMessage sampleOKResponse hwf hb hbr).1,
    (C3_protocol_roundtrip sampleSyncMessage sampleOKResponse hwf hb hbr).2⟩

/-- Counterexample to C3 as stated: a well-formed `Delete` message whose path
is `2 ^ 32` bytes long does not round-trip — `WriteMessage` emits a length
prefix of `uint32(2 ^ 32) = 0`, so `ReadMessage` returns a message with an
empty path and leaves the path bytes unread. -/
theorem C3_counterexample :
    WFMessage bigPathMessage ∧
    readMessage (writeMessage bigPathMessage) =
      some (⟨messageDelete, [], [], [], 0, [], []⟩,
        List.replicate (2 ^ 32) (byteOf 97)) ∧
    (⟨messageDelete, [], [], [], 0, [], []⟩ : Message) ≠ bigPathMessage := by
  refine ⟨⟨Or.inr (Or.inl rfl), fun h => absurd h (by decide),
    fun _ => ⟨rfl, rfl, rfl⟩⟩, ?_, ?_⟩
  · set L := List.replicate (2 ^ 32) (byteOf 97) with hL
    have hLen : L.length = 2 ^ 32 := by rw [hL, List.length_replicate]
    have hws : writeStr L = writeU32 (2 ^ 32) ++ L := by rw [writeStr, hLen]
    have hbig : bigPathMessage = (⟨messageDelete, [], [], L, 0, [], []⟩ : Message) := by
      rw [hL]
      rfl
    have hunfold : writeMessage (⟨messageDelete, [], [], L, 0, [], []⟩ : Message) =
        [byteOf messageDelete] ++ writeStr [] ++ writeU32 0 ++ writeVCEntries [] ++
          writeStr L ++ [] := by
      rw [writeMessage]
      rfl
    rw [hbig, hunfold, hws]
    rw [List.append_nil]
    rw [List.append_assoc, List.append_assoc, List.append_assoc,
      List.singleton_append]
    rw [readMessage]
    rw [show readByte (byteOf messageDelete ::
        (writeStr [] ++ (writeU32 0 ++ (writeVCEntries [] ++ (writeU32 (2 ^ 32) ++ L))))) =
      some (byteOf messageDelete,
        writeStr [] ++ (writeU32 0 ++ (writeVCEntries [] ++ (writeU32 (2 ^ 32) ++ L)))) from
      rfl]
    rw [Option.some_bind, readStr_writeStr [] _ (by norm_num), Option.some_bind,
      readU32_writeU32 0 _ (by norm_num), Option.some_bind]
    rw [show readVCEntries 0 (writeVCEntries [] ++ (writeU32 (2 ^ 32) ++ L)) =
      some ([], writeVCEntries [] ++ (writeU32 (2 ^ 32) ++ L)) from rfl]
    rw [Option.some_bind]
    rw [show writeVCEntries [] ++ (writeU32 (2 ^ 32) ++ L) = writeU32 (2 ^ 32) ++ L from
      rfl]
    rw [readStr, readU32_writeU32_mod (2 ^ 32) L, Option.some_bind, Nat.mod_self]
    rw [show readBytes 0 L = some ([], L) from rfl]
    rw [Option.some_bind]
    rw [if_neg (by decide)]
    rfl
  · intro h
    have h1 : (⟨messageDelete, [], [], [], 0, [], []⟩ : Message).path.length =
        bigPathMessage.path.length := congrArg (fun mm : Message => mm.path.length) h
    have h2 : ([] : Bytes).length = (List.replicate (2 ^ 32) (byteOf 97)).length := h1
    rw [List.length_nil, List.length_replicate] at h2
    exact absurd h2 (by norm_num)

/-! ## Claims C4 and C5 -/

/-- C4 (amended): for every vector clock and every finite sequence of `Tick`
and `Merge` operations in which no `Tick` is applied to an entry already
holding the maximal `uint64` value `2 ^ 64 - 1`, no stored component's value
ever decreases; under the same non-wrapping condition `Tick(n)` increments
node `n`'s entry by exactly 1 and leaves all other entries unchanged, and
`Merge(other)` replaces each entry with the componentwise maximum of the
stored and incoming values. -/
theorem C4_vclock_monotonicity :
    (∀ (vc : VC) (ops : List ClockOp) (k : Bytes), safeOps vc ops = true →
      lookupVC vc k ≤ lookupVC (applyOps vc ops) k) ∧
    (∀ (vc : VC) (n : Bytes), lookupVC vc n < 2 ^ 64 - 1 →
      lookupVC (tickVC vc n) n = lookupVC vc n + 1) ∧
    (∀ (vc : VC) (n k : Bytes), n ≠ k →
      lookupVC (tickVC vc n) k = lookupVC vc k) ∧
    (∀ (vc o : VC) (k : Bytes), (o.map Prod.fst).Nodup →
      lookupVC (mergeVC vc o) k = max (lookupVC vc k) (lookupVC o k)) := by
  refine ⟨fun vc ops k h => lookupVC_le_applyOps ops vc k h, ?_, ?_, ?_⟩
  · intro vc n h
    rw [lookupVC_tickVC_self, Nat.mod_eq_of_lt (by omega)]
  · intro vc n k h
    exact lookupVC_tickVC_other vc n k h
  · intro vc o k h
    exact lookupVC_mergeVC_eq_max vc o h k

/-- Witness for C4: a concrete clock, a concrete wrap-free `Tick`/`Merge`
sequence, and concrete single steps, with every hypothesis discharged by
evaluation. -/
theorem C4_vclock_monotonicity_witness :
    safeOps [(strBytes "N1", 1)]
        [ClockOp.tickOp (strBytes "N1"), ClockOp.mergeOp [(strBytes "N2", 5)]] = true ∧
    lookupVC [(strBytes "N1", 1)] (strBytes "N1") ≤
      lookupVC (applyOps [(strBytes "N1", 1)]
        [ClockOp.tickOp (strBytes "N1"), ClockOp.mergeOp [(strBytes "N2", 5)]])
        (strBytes "N1") ∧
    lookupVC (tickVC [(strBytes "N1", 1)] (strBytes "N1")) (strBytes "N1") = 2 ∧
    lookupVC (tickVC [(strBytes "N1", 1)] (strBytes "N1")) (strBytes "N2") = 0 ∧
    lookupVC (mergeVC [(strBytes "N1", 1)] [(strBytes "N1", 7)]) (strBytes "N1") =
      max 1 7 := by
  refine ⟨by decide, C4_vclock_monotonicity.1 _ _ _ (by decide), ?_, ?_, ?_⟩
  · have := C4_vclock_monotonicity.2.1 [(strBytes "N1", 1)] (strBytes "N1") (by decide)
    rw [this]
    decide
  · exact C4_vclock_monotonicity.2.2.1 [(strBytes "N1", 1)]
      (strBytes "N1") (strBytes "N2") (by decide)
  · have := C4_vclock_monotonicity.2.2.2 [(strBytes "N1", 1)] [(strBytes "N1", 7)]
      (strBytes "N1") (by decide)
    rw [this, lookupVC]
    decide

/-- Counterexample to C4 as stated: `Tick` on a `uint64` entry holding
`2 ^ 64 - 1` wraps to 0, so a component's stored value can decrease. -/
theorem C4_counterexample :
    lookupVC (tickVC [(strBytes "n", 2 ^ 64 - 1)] (strBytes "n")) (strBytes "n") = 0 ∧
    0 < lookupVC [(strBytes "n", 2 ^ 64 - 1)] (strBytes "n") := by
  constructor
  · rw [lookupVC_tickVC_self]
    rw [show lookupVC [(strBytes "n", 2 ^ 64 - 1)] (strBytes "n") = 2 ^ 64 - 1 by
      rw [lookupVC]; simp]
    norm_num
  · rw [lookupVC]
    norm_num

/-- C5 at the failing input: `Compare`'s crossed flag updates (`av > bv`
clears `bBeforeA`, `av < bv` clears `aBeforeB`) make it return `Before`
exactly when `A` dominates or equals `B` pointwise and `After` exactly when
`A` is strictly dominated — the opposite of the claim's strict cases.
Concretely, `Compare({N1:1}, {N1:2})` is `After` where the claim says
`Before`, and `Compare({N1:2}, {N1:1})` is `Before` where the claim says
`After`; only the equal-clocks → `Before` part and the `Concurrent` case
agree with the claim. -/
theorem C5_compare_inverted :
    (∀ a b : VC,
      (vcompare a b = .before ↔ vcLE b a) ∧
      (vcompare a b = .after ↔ (vcLE a b ∧ ¬ vcLE b a)) ∧
      (vcompare a b = .concurrent ↔ (¬ vcLE a b ∧ ¬ vcLE b a))) ∧
    vcompare [(strBytes "N1", 1)] [(strBytes "N1", 2)] = .after ∧
    vcompare [(strBytes "N1", 2)] [(strBytes "N1", 1)] = .before ∧
    vcompare [(strBytes "N1", 1)] [(strBytes "N1", 1)] = .before ∧
    vcompare ([] : VC) ([] : VC) = .before :=
  ⟨fun a b =>
    ⟨vcompare_before_iff a b, vcompare_after_iff a b, vcompare_concurrent_iff a b⟩,
    by decide, by decide, by decide, by decide⟩

/-! ## Claims C8, C9, C10 -/

/-- C8 (confirmed): under strategy `NEWER_WINS` — which is also what
`NewResolver` picks for an unconfigured (empty) strategy — `Resolve` proceeds
exactly when the conflict's source mod time is strictly greater than its
destination mod time; on equal times it does not proceed. -/
theorem C8_newer_wins_resolve (c : ConflictInfo) (dstPath ts : Bytes) (fs : FS) :
    NewResolver [] = NewResolver strategyNewerWins ∧
    ((Resolve (NewResolver strategyNewerWins) c dstPath ts fs).1 = true ↔
      c.dstModTime < c.srcModTime) ∧
    (c.srcModTime = c.dstModTime →
      (Resolve (NewResolver strategyNewerWins) c dstPath ts fs).1 = false) := by
  have hres : NewResolver strategyNewerWins = ⟨strategyNewerWins⟩ := by
    rw [NewResolver, if_neg (by decide)]
  refine ⟨by decide, ?_, ?_⟩
  · rw [hres, Resolve, if_pos rfl]
    by_cases hlt : c.dstModTime < c.srcModTime <;> simp [resolveNewerWins, hlt]
  · intro he
    rw [hres, Resolve, if_pos rfl]
    simp [resolveNewerWins, he]

/-- Witness for C8: with a strictly newer source `Resolve` proceeds, and with
equal mod times it does not, applying the theorem at concrete conflicts. -/
theorem C8_newer_wins_resolve_witness :
    (Resolve (NewResolver strategyNewerWins)
      ⟨strBytes "f", 2, 1, strategyNewerWins, false, []⟩
      (strBytes "d") [] []).1 = true ∧
    (Resolve (NewResolver strategyNewerWins)
      ⟨strBytes "f", 1, 1, strategyNewerWins, false, []⟩
      (strBytes "d") [] []).1 = false :=
  ⟨(C8_newer_wins_resolve ⟨strBytes "f", 2, 1, strategyNewerWins, false, []⟩
      (strBytes "d") [] []).2.1.2 (by norm_num),
    (C8_newer_wins_resolve ⟨strBytes "f", 1, 1, strategyNewerWins, false, []⟩
      (strBytes "d") [] []).2.2 rfl⟩

/-- C9 (amended): the endpoint parser classifies `"/home/u/d"` as local,
`"gdrive:/x"` as gdrive, and `"host:9000/p"` as remote-tcp with host
`"host:9000"` and path `"/p"`; but `"./rel:name"` has a slash before its
colon and is therefore local — the documented remote-tcp quirk applies to a
relative path with a colon and no slash before it, such as `"rel:name"`,
which parses as remote-tcp with host `"rel:name"` and an empty path. -/
theorem C9_endpoint_classification :
    endpointType (strBytes "/home/u/d") = .localEndpoint ∧
    endpointType (strBytes "gdrive:/x") = .gdrive ∧
    endpointType (strBytes "host:9000/p") = .remoteTCP ∧
    ParseEndpoint (strBytes "host:9000/p") =
      ⟨strBytes "host:9000", strBytes "/p"⟩ ∧
    endpointType (strBytes "./rel:name") = .localEndpoint ∧
    ParseEndpoint (strBytes "./rel:name") = ⟨[], strBytes "./rel:name"⟩ ∧
    endpointType (strBytes "rel:name") = .remoteTCP ∧
    ParseEndpoint (strBytes "rel:name") = ⟨strBytes "rel:name", []⟩ := by
  decide

/-- Counterexample to C9 as stated: `"./rel:name"` is classified local, not
remote-tcp, because the slash at index 1 precedes the colon at index 5. -/
theorem C9_counterexample :
    endpointType (strBytes "./rel:name") ≠ EndpointType.remoteTCP := by
  decide

/-- C10 (confirmed): a Delete exchange never touches either side's vector
clock — `sendDelete` builds a message with no origin ID and no vector clock
and leaves the syncer's state (hence its clock) unchanged, and the server's
`handleDelete` leaves the server state (hence its clock) unchanged, removing
the file and responding `OK` when the removal does not fail. -/
theorem C10_delete_clock_frame (sy : SyncerState) (relPath : Bytes)
    (o : Oracle) (s : ServerState) (fs : FS) :
    (sendDeleteMessage sy relPath).1.originID = [] ∧
    (sendDeleteMessage sy relPath).1.vclock = [] ∧
    (sendDeleteMessage sy relPath).2 = sy ∧
    (handleDelete o s fs (sendDeleteMessage sy relPath).1).2.1 = s ∧
    (o.removeFail = false →
      (handleDelete o s fs (sendDeleteMessage sy relPath).1).1.code = responseOK ∧
      (handleDelete o s fs (sendDeleteMessage sy relPath).1).2.2 =
        eraseFS fs (joinPath s.dst relPath)) := by
  refine ⟨rfl, rfl, rfl, ?_, ?_⟩
  · cases hr : o.removeFail <;> simp [handleDelete, hr]
  · intro hr
    simp [handleDelete, hr, sendDeleteMessage]

/-- Witness for C10: a concrete Delete exchange removes the file, responds
`OK`, and leaves both clocks as they were, applying the theorem with the
no-failure hypothesis discharged by evaluation. -/
theorem C10_delete_clock_frame_witness :
    (handleDelete okOracle
      ⟨strBytes "dst", strBytes "N2", ⟨strategyNewerWins⟩, [(strBytes "N1", 1)]⟩
      [(joinPath (strBytes "dst") (strBytes "f"), ⟨strBytes "x", 0⟩)]
      (sendDeleteMessage ⟨strBytes "src", strBytes "a", strBytes "N1",
        [(strBytes "N1", 1)]⟩ (strBytes "f")).1).2.1 =
      ⟨strBytes "dst", strBytes "N2", ⟨strategyNewerWins⟩, [(strBytes "N1", 1)]⟩ ∧
    (handleDelete okOracle
      ⟨strBytes "dst", strBytes "N2", ⟨strategyNewerWins⟩, [(strBytes "N1", 1)]⟩
      [(joinPath (strBytes "dst") (strBytes "f"), ⟨strBytes "x", 0⟩)]
      (sendDeleteMessage ⟨strBytes "src", strBytes "a", strBytes "N1",
        [(strBytes "N1", 1)]⟩ (strBytes "f")).1).1.code = responseOK :=
  ⟨(C10_delete_clock_frame ⟨strBytes "src", strBytes "a", strBytes "N1",
      [(strBytes "N1", 1)]⟩ (strBytes "f") okOracle
      ⟨strBytes "dst", strBytes "N2", ⟨strategyNewerWins⟩, [(strBytes "N1", 1)]⟩
      [(joinPath (strBytes "dst") (strBytes "f"), ⟨strBytes "x", 0⟩)]).2.2.2.1,
    ((C10_delete_clock_frame ⟨strBytes "src", strBytes "a", strBytes "N1",
      [(strBytes "N1", 1)]⟩ (strBytes "f") okOracle
      ⟨strBytes "dst", strBytes "N2", ⟨strategyNewerWins⟩, [(strBytes "N1", 1)]⟩
      [(joinPath (strBytes "dst") (strBytes "f"), ⟨strBytes "x", 0⟩)]).2.2.2.2
      rfl).1⟩

/-! ## File-system laws and claims C1, C2, C6, C7 -/

theorem lookupFS_setFS_self (fs : FS) (p : Bytes) (fi : FileInfo) :
    lookupFS (setFS fs p fi) p = some fi := by
  induction fs with
  | nil => simp [setFS, lookupFS]
  | cons hd t ih =>
    obtain ⟨p₀, fi₀⟩ := hd
    by_cases h : p₀ = p
    · simp [setFS, h, lookupFS]
    · simp [setFS, h, lookupFS, ih]

theorem lookupFS_setFS_other (fs : FS) (p p' : Bytes) (fi : FileInfo)
    (h : p ≠ p') : lookupFS (setFS fs p fi) p' = lookupFS fs p' := by
  induction fs with
  | nil => simp [setFS, lookupFS, h]
  | cons hd t ih =>
    obtain ⟨p₀, fi₀⟩ := hd
    by_cases hp : p₀ = p
    · subst hp
      simp [setFS, lookupFS, h]
    · simp [setFS, lookupFS, hp, ih]

theorem lookupFS_eraseFS_self (fs : FS) (p : Bytes) :
    lookupFS (eraseFS fs p) p = none := by
  induction fs with
  | nil => simp [eraseFS, lookupFS]
  | cons hd t ih =>
    obtain ⟨p₀, fi₀⟩ := hd
    by_cases h : p₀ = p
    · simp [eraseFS, h, ih]
    · simp [eraseFS, h, lookupVC, lookupFS, ih]

theorem lookupFS_eraseFS_other (fs : FS) (p p' : Bytes) (h : p ≠ p') :
    lookupFS (eraseFS fs p) p' = lookupFS fs p' := by
  induction fs with
  | nil => simp [eraseFS]
  | cons hd t ih =>
    obtain ⟨p₀, fi₀⟩ := hd
    by_cases hp : p₀ = p
    · subst hp
      simp [eraseFS, lookupFS, h, ih]
    · simp [eraseFS, lookupFS, hp, ih]

/-- The temp name differs from the destination (it is 10 bytes longer). -/
theorem tmpName_ne (dst : Bytes) : tmpName dst ≠ dst := by
  have h10 : (strBytes ".synco.tmp").length = 10 := by decide
  intro h
  have hlen := congrArg List.length h
  rw [tmpName, List.length_append, h10] at hlen
  omega

/-- Every failing `AtomicWrite` leaves no temp file (given none existed) and
leaves the destination unchanged. -/
theorem AtomicWrite_error_clean (o : Oracle) (dst data : Bytes) (now : Int)
    (fs : FS) (htmp : lookupFS fs (tmpName dst) = none)
    (herr : (AtomicWrite o dst data now fs).1 ≠ .ok ()) :
    lookupFS (AtomicWrite o dst data now fs).2 (tmpName dst) = none ∧
    lookupFS (AtomicWrite o dst data now fs).2 dst = lookupFS fs dst := by
  have hne := tmpName_ne dst
  simp only [AtomicWrite] at herr ⊢
  split_ifs at herr ⊢
  · exact ⟨htmp, rfl⟩
  · exact ⟨htmp, rfl⟩
  · refine ⟨lookupFS_eraseFS_self _ _, ?_⟩
    dsimp only
    rw [lookupFS_eraseFS_other _ _ _ hne, lookupFS_setFS_other _ _ _ _ hne,
      lookupFS_setFS_other _ _ _ _ hne]
  · refine ⟨lookupFS_eraseFS_self _ _, ?_⟩
    dsimp only
    rw [lookupFS_eraseFS_other _ _ _ hne, lookupFS_setFS_other _ _ _ _ hne,
      lookupFS_setFS_other _ _ _ _ hne]
  · refine ⟨lookupFS_eraseFS_self _ _, ?_⟩
    dsimp only
    rw [lookupFS_eraseFS_other _ _ _ hne, lookupFS_setFS_other _ _ _ _ hne,
      lookupFS_setFS_other _ _ _ _ hne]
  · exact absurd rfl herr

/-- Every failing `writeFile` leaves the destination unchanged. -/
theorem writeFile_error_frame (o : Oracle) (dst data : Bytes) (now : Int)
    (fs : FS) (herr : (writeFile o dst data now fs).1 ≠ .ok ()) :
    lookupFS (writeFile o dst data now fs).2 dst = lookupFS fs dst := by
  have hne := tmpName_ne dst
  simp only [writeFile] at herr ⊢
  split_ifs at herr ⊢
  · rfl
  · rfl
  · dsimp only
    rw [lookupFS_setFS_other _ _ _ _ hne]
  · dsimp only
    rw [lookupFS_eraseFS_other _ _ _ hne, lookupFS_setFS_other _ _ _ _ hne]
  · exact absurd rfl herr

/-- A failing `writeFile` whose temp write did not fail leaves no temp file
(given none existed). -/
theorem writeFile_error_clean_of_no_write_failure (o : Oracle)
    (dst data : Bytes) (now : Int) (fs : FS) (hw : o.writeFail = false)
    (htmp : lookupFS fs (tmpName dst) = none)
    (herr : (writeFile o dst data now fs).1 ≠ .ok ()) :
    lookupFS (writeFile o dst data now fs).2 (tmpName dst) = none := by
  simp only [writeFile] at herr ⊢
  split_ifs at herr ⊢ with h1 h2 h3 h4
  · exact htmp
  · exact htmp
  · rw [hw] at h3
    cases h3
  · exact lookupFS_eraseFS_self _ _
  · exact absurd rfl herr

/-- C7 (amended): every failure branch of `util.AtomicWrite` (temp-file
creation, copy, close, or rename failing) removes the temp file
`<dst>.synco.tmp` and leaves the destination unchanged; the older receive
server's `writeFile` also leaves the destination unchanged on every failure
branch and removes the temp file when the failing step is the rename, but a
failure of the temp-file write itself (`os.WriteFile`) returns without
removing the partial temp file. -/
theorem C7_atomic_write_cleanup :
    (∀ (o : Oracle) (dst data : Bytes) (now : Int) (fs : FS),
      lookupFS fs (tmpName dst) = none →
      (AtomicWrite o dst data now fs).1 ≠ .ok () →
      lookupFS (AtomicWrite o dst data now fs).2 (tmpName dst) = none ∧
      lookupFS (AtomicWrite o dst data now fs).2 dst = lookupFS fs dst) ∧
    (∀ (o : Oracle) (dst data : Bytes) (now : Int) (fs : FS),
      (writeFile o dst data now fs).1 ≠ .ok () →
      lookupFS (writeFile o dst data now fs).2 dst = lookupFS fs dst) ∧
    (∀ (o : Oracle) (dst data : Bytes) (now : Int) (fs : FS),
      o.writeFail = false → lookupFS fs (tmpName dst) = none →
      (writeFile o dst data now fs).1 ≠ .ok () →
      lookupFS (writeFile o dst data now fs).2 (tmpName dst) = none) :=
  ⟨fun o dst data now fs h1 h2 => AtomicWrite_error_clean o dst data now fs h1 h2,
    fun o dst data now fs h => writeFile_error_frame o dst data now fs h,
    fun o dst data now fs hw h1 h2 =>
      writeFile_error_clean_of_no_write_failure o dst data now fs hw h1 h2⟩

/-- Witness for C7: a concrete failing copy in `AtomicWrite` leaves no temp
file and an unchanged destination, and a concrete failing rename in
`writeFile` leaves no temp file, applying the theorem with every hypothesis
discharged by evaluation. -/
theorem C7_atomic_write_cleanup_witness :
    lookupFS (AtomicWrite ⟨false, false, true, false, false, false, false,
        strBytes "p"⟩ (strBytes "d") (strBytes "x") 0 []).2
      (tmpName (strBytes "d")) = none ∧
    lookupFS (AtomicWrite ⟨false, false, true, false, false, false, false,
        strBytes "p"⟩ (strBytes "d") (strBytes "x") 0 []).2 (strBytes "d") =
      lookupFS [] (strBytes "d") ∧
    lookupFS (writeFile ⟨false, false, false, false, true, false, false,
        strBytes "p"⟩ (strBytes "d") (strBytes "x") 0 []).2
      (tmpName (strBytes "d")) = none := by
  have ha := C7_atomic_write_cleanup.1
    ⟨false, false, true, false, false, false, false, strBytes "p"⟩
    (strBytes "d") (strBytes "x") 0 [] rfl
    (fun hc => Except.noConfusion hc)
  have hb := C7_atomic_write_cleanup.2.2
    ⟨false, false, false, false, true, false, false, strBytes "p"⟩
    (strBytes "d") (strBytes "x") 0 [] rfl rfl
    (fun hc => Except.noConfusion hc)
  exact ⟨ha.1, ha.2, hb⟩

/-- Counterexample to C7 as stated: when the temp-file write of the older
server's `writeFile` fails, the function returns the error with the partial
temp file `<dst>.synco.tmp` still present. -/
theorem C7_counterexample :
    (writeFile ⟨false, false, false, false, false, true, false, strBytes "p"⟩
      (strBytes "d") (strBytes "x") 0 []).1 = Except.error "write temp file" ∧
    lookupFS (writeFile ⟨false, false, false, false, false, true, false,
        strBytes "p"⟩ (strBytes "d") (strBytes "x") 0 []).2
      (tmpName (strBytes "d")) = some ⟨strBytes "p", 0⟩ :=
  ⟨rfl, rfl⟩

/-- The `Before` branch of `handleSync` is itself side-effect-free: whenever
`Compare` returns `Before` (and the dedup fast path missed), the server
responds `Skip` with the state and file system unchanged.  (With the crossed
`Compare`, that branch fires for dominating — fresh — clocks, not stale
ones.) -/
theorem handleSync_before_branch_skip (h : Bytes → Bytes) (o : Oracle)
    (ts : Bytes) (now : Int) (s : ServerState) (fs : FS) (msg : Message)
    (hfast : syncDedup h fs (joinPath s.dst msg.path) msg.checksum = false)
    (hrel : vcompare msg.vclock s.vc = .before) :
    handleSync h o ts now s fs msg = (⟨responseSkip, [], []⟩, s, fs) := by
  simp [handleSync, hfast, hrel]

/-- C6 at the failing input (scenario S3): the server holds clock `{N1: 2}`
and an old file; the incoming `Sync` carries the genuinely stale clock
`{N1: 1}` and different content.  Because `Compare`'s flag updates are
crossed, `Compare({N1:1}, {N1:2})` returns `After`, so the server does NOT
skip: it merges and ticks its clock to `{N1: 2, N2: 1}`, overwrites the
destination file, and responds `OK` — the exchange is not side-effect-free
and the stale push wins. -/
theorem C6_stale_push_overwrites :
    vcompare [(strBytes "N1", 1)] [(strBytes "N1", 2)] = .after ∧
    handleSync (fun b => b) okOracle [] 9
      ⟨strBytes "dst", strBytes "N2", ⟨strategyNewerWins⟩, [(strBytes "N1", 2)]⟩
      [(joinPath (strBytes "dst") (strBytes "f"), ⟨strBytes "old", 0⟩)]
      ⟨messageSync, strBytes "N1", [(strBytes "N1", 1)], strBytes "f", 3,
        strBytes "x", strBytes "x"⟩ =
    (⟨responseOK, [], []⟩,
      ⟨strBytes "dst", strBytes "N2", ⟨strategyNewerWins⟩,
        [(strBytes "N1", 2), (strBytes "N2", 1)]⟩,
      [(joinPath (strBytes "dst") (strBytes "f"), ⟨strBytes "x", 9⟩)]) := by
  constructor
  · decide
  · decide

/-- C2 at the failing input: the destination already holds exactly the
incoming contents (equal hashes).  The oldest server's `handleSync` — whose
checksum fast path tests `err != nil` — does NOT skip: it validates, rewrites
the file (updating its mod time) and responds `OK`; the current server
responds `Skip` and changes nothing. -/
theorem C2_inverted_dedup_check :
    handleSyncOld (fun b => b) okOracle 9 (strBytes "dst")
      [(joinPath (strBytes "dst") (strBytes "f"), ⟨strBytes "x", 0⟩)]
      ⟨messageSync, strBytes "N1", [], strBytes "f", 3, strBytes "x",
        strBytes "x"⟩ =
    (⟨responseOK, [], []⟩,
      [(joinPath (strBytes "dst") (strBytes "f"), ⟨strBytes "x", 9⟩)]) ∧
    handleSync (fun b => b) okOracle [] 9
      ⟨strBytes "dst", strBytes "N2", ⟨strategyNewerWins⟩, [(strBytes "N1", 5)]⟩
      [(joinPath (strBytes "dst") (strBytes "f"), ⟨strBytes "x", 0⟩)]
      ⟨messageSync, strBytes "N1", [], strBytes "f", 3, strBytes "x",
        strBytes "x"⟩ =
    (⟨responseSkip, [], []⟩,
      ⟨strBytes "dst", strBytes "N2", ⟨strategyNewerWins⟩, [(strBytes "N1", 5)]⟩,
      [(joinPath (strBytes "dst") (strBytes "f"), ⟨strBytes "x", 0⟩)]) := by
  constructor
  · decide
  · decide

/-- C1 at the failing inputs.  Part (i), the literal S2 exchange: N1 (empty
clock) pushes `f = "x"` to N2 (empty clock).  Because `Compare`'s flag
updates are crossed, `Compare({N1:1}, {})` returns `Before`, so the server
responds `Skip`, writes nothing and merges nothing — no `OK` exchange
happens at all and the pusher's clock stays `{N1: 1}`.  Part (ii), an
exchange that does produce `OK` (server clock `{N1: 5}`, so the incoming
`{N1: 1}` compares `After`): the server merges and ticks its own clock to
`{N1: 5, N2: 1}`, but the `OK` it writes is `Response{Code: ResponseOK}`
with no `VClock`, so the response carries an empty clock, the pusher's
merge-on-OK is a no-op, and the pusher's clock keeps no entry for N2. -/
theorem C1_ok_response_carries_no_clock :
    (handleSync (fun _ => strBytes "H") okOracle [] 9
      ⟨strBytes "dst", strBytes "N2", ⟨strategyNewerWins⟩, []⟩ []
      (sendFileMessage (fun _ => strBytes "H")
        ⟨strBytes "src", strBytes "addr", strBytes "N1", []⟩
        (strBytes "f") (strBytes "x") 4).1) =
      (⟨responseSkip, [], []⟩,
        ⟨strBytes "dst", strBytes "N2", ⟨strategyNewerWins⟩, []⟩, []) ∧
    (sendFileOnResponse
      (sendFileMessage (fun _ => strBytes "H")
        ⟨strBytes "src", strBytes "addr", strBytes "N1", []⟩
        (strBytes "f") (strBytes "x") 4).2
      ⟨responseSkip, [], []⟩).vc = [(strBytes "N1", 1)] ∧
    (handleSync (fun _ => strBytes "H") okOracle [] 9
      ⟨strBytes "dst", strBytes "N2", ⟨strategyNewerWins⟩, [(strBytes "N1", 5)]⟩ []
      (sendFileMessage (fun _ => strBytes "H")
        ⟨strBytes "src", strBytes "addr", strBytes "N1", []⟩
        (strBytes "f") (strBytes "x") 4).1).1.code = responseOK ∧
    (handleSync (fun _ => strBytes "H") okOracle [] 9
      ⟨strBytes "dst", strBytes "N2", ⟨strategyNewerWins⟩, [(strBytes "N1", 5)]⟩ []
      (sendFileMessage (fun _ => strBytes "H")
        ⟨strBytes "src", strBytes "addr", strBytes "N1", []⟩
        (strBytes "f") (strBytes "x") 4).1).1.vclock = [] ∧
    (handleSync (fun _ => strBytes "H") okOracle [] 9
      ⟨strBytes "dst", strBytes "N2", ⟨strategyNewerWins⟩, [(strBytes "N1", 5)]⟩ []
      (sendFileMessage (fun _ => strBytes "H")
        ⟨strBytes "src", strBytes "addr", strBytes "N1", []⟩
        (strBytes "f") (strBytes "x") 4).1).2.1.vc =
      [(strBytes "N1", 5), (strBytes "N2", 1)] ∧
    (sendFileOnResponse
      (sendFileMessage (fun _ => strBytes "H")
        ⟨strBytes "src", strBytes "addr", strBytes "N1", []⟩
        (strBytes "f") (strBytes "x") 4).2
      (handleSync (fun _ => strBytes "H") okOracle [] 9
        ⟨strBytes "dst", strBytes "N2", ⟨strategyNewerWins⟩, [(strBytes "N1", 5)]⟩ []
        (sendFileMessage (fun _ => strBytes "H")
          ⟨strBytes "src", strBytes "addr", strBytes "N1", []⟩
          (strBytes "f") (strBytes "x") 4).1).1).vc = [(strBytes "N1", 1)] ∧
    lookupVC (sendFileOnResponse
      (sendFileMessage (fun _ => strBytes "H")
        ⟨strBytes "src", strBytes "addr", strBytes "N1", []⟩
        (strBytes "f") (strBytes "x") 4).2
      (handleSync (fun _ => strBytes "H") okOracle [] 9
        ⟨strBytes "dst", strBytes "N2", ⟨strategyNewerWins⟩, [(strBytes "N1", 5)]⟩ []
        (sendFileMessage (fun _ => strBytes "H")
          ⟨strBytes "src", strBytes "addr", strBytes "N1", []⟩
          (strBytes "f") (strBytes "x") 4).1).1).vc (strBytes "N2") = 0 := by
  refine ⟨by decide, by decide, by decide, by decide, by decide, by decide, by decide⟩

end Synco

